import Mathlib

/-!
Verification development for the heartbridge client library and the
performance-session broadcast protocol it exercises.

The first part embeds the client wrapper methods (`Client`, `WSClient`,
`RESTClient`) as pure functions on JSON-like payloads, following the Python
source.  The second part models the server-side session state machine and
broadcast core from the specification, since the server implementation is not
part of this repository.
-/

namespace Heartbridge

/-- A JSON scalar value as it appears in the payloads built by the clients. -/
inductive JsonVal : Type where
  | str (s : String)
  | num (n : Int)
deriving Repr, DecidableEq

/-- A JSON object, modelled as an insertion-ordered association list,
matching the semantics of a Python `dict`. -/
abbrev JsonObj : Type := List (String × JsonVal)

/-- Insert-or-overwrite of a key, matching Python `d[k] = v`: an existing key
keeps its position and gets the new value, a new key is appended at the end. -/
def dictInsert (d : JsonObj) (k : String) (v : JsonVal) : JsonObj :=
  if d.any (fun p => p.1 = k) then
    d.map (fun p => if p.1 = k then (k, v) else p)
  else
    d ++ [(k, v)]

/-- The Python double-splat merge `\x7b**a, **b\x7d`: start from `a` and insert
each entry of `b` in order, so keys of `b` take precedence. -/
def dictMerge (a b : JsonObj) : JsonObj :=
  b.foldl (fun d p => dictInsert d p.1 p.2) a

/-- Key lookup in a JSON object (first matching entry). -/
def dictLookup (d : JsonObj) (k : String) : Option JsonVal :=
  (d.find? (fun p => p.1 = k)).map (fun p => p.2)

/-- The keys of a JSON object in order. -/
def dictKeys (d : JsonObj) : List String :=
  d.map (fun p => p.1)

/-- `Client.update` from `src/heartbridge/Client.py`: the payload sent is
`\x7b**cmd_json, **updated_info\x7d` where
`cmd_json = \x7b'action': 'update', 'token': token\x7d`. -/
def Client.updatePayload (token : JsonVal) (updated_info : JsonObj) : JsonObj :=
  dictMerge [("action", JsonVal.str "update"), ("token", token)] updated_info

/-- `WSClient.update` from `src/heartbridge/WSClient.py`: identical payload
construction to `Client.update`. -/
def WSClient.updatePayload (token : JsonVal) (updated_info : JsonObj) : JsonObj :=
  dictMerge [("action", JsonVal.str "update"), ("token", token)] updated_info

/-- `RESTClient.update` from `src/heartbridge/RESTClient.py`: the body posted
to `/update` is the same merged dictionary. -/
def RESTClient.updatePayload (token : JsonVal) (updated_info : JsonObj) : JsonObj :=
  dictMerge [("action", JsonVal.str "update"), ("token", token)] updated_info

/-- `Client.register` from `src/heartbridge/Client.py`.  The Python signature
is `def register(self, artist, title, performance_date=int(datetime.datetime.now().timestamp()))`:
the default expression is evaluated once, when the class body is executed
at import time, so the default value is the timestamp captured at import
time (`importTime` here), not the time of the call. -/
def Client.registerPayload (importTime : Int) (artist title : String)
    (performance_date : Option Int) : JsonObj :=
  [("action", JsonVal.str "register"),
   ("artist", JsonVal.str artist),
   ("title", JsonVal.str title),
   ("performance_date", JsonVal.num (performance_date.getD importTime))]

/-- `WSClient.register` from `src/heartbridge/WSClient.py`: same signature and
payload as `Client.register`, with the same import-time default expression. -/
def WSClient.registerPayload (importTime : Int) (artist title : String)
    (performance_date : Option Int) : JsonObj :=
  [("action", JsonVal.str "register"),
   ("artist", JsonVal.str artist),
   ("title", JsonVal.str title),
   ("performance_date", JsonVal.num (performance_date.getD importTime))]

/-- The `performance_date` argument of `RESTClient.register`, which is
`Union[int, str]` in the Python source. -/
inductive DateArg : Type where
  | int (n : Int)
  | str (s : String)
deriving Repr, DecidableEq

/-- Rendering of a `DateArg` into the JSON payload. -/
def DateArg.toJson : DateArg → JsonVal
  | DateArg.int n => JsonVal.num n
  | DateArg.str s => JsonVal.str s

/-- `RESTClient.register` from `src/heartbridge/RESTClient.py`: when
`performance_date` is an `int` and negative (the default is `-1`), it is
replaced by the current epoch timestamp (`now`, taken at call time); a
non-negative int or a string is forwarded unchanged.  The payload lists the
fields in the order of the source. -/
def RESTClient.registerPayload (now : Int) (artist title email description : String)
    (duration : Int) (performance_date : DateArg := DateArg.int (-1)) : JsonObj :=
  let pd : DateArg :=
    match performance_date with
    | DateArg.int n => if n < 0 then DateArg.int now else DateArg.int n
    | DateArg.str s => DateArg.str s
  [("action", JsonVal.str "register"),
   ("artist", JsonVal.str artist),
   ("title", JsonVal.str title),
   ("performance_date", pd.toJson),
   ("description", JsonVal.str description),
   ("email", JsonVal.str email),
   ("duration", JsonVal.num duration)]

theorem find?_overwrite_self (d : JsonObj) (k : String) (v : JsonVal)
    (h : d.any (fun p => p.1 = k)) :
    (d.map (fun p => if p.1 = k then (k, v) else p)).find? (fun p => p.1 = k)
      = some (k, v) := by
  induction d with
  | nil => simp at h
  | cons p t ih =>
    simp only [List.map_cons]
    by_cases hp : p.1 = k
    · rw [if_pos hp, List.find?_cons_of_pos]
      simp
    · rw [if_neg hp, List.find?_cons_of_neg _ (by simpa using hp)]
      apply ih
      simpa [hp] using h

theorem find?_overwrite_ne (d : JsonObj) (k k2 : String) (v : JsonVal)
    (hne : k2 ≠ k) :
    (d.map (fun p => if p.1 = k then (k, v) else p)).find? (fun p => p.1 = k2)
      = d.find? (fun p => p.1 = k2) := by
  induction d with
  | nil => rfl
  | cons p t ih =>
    simp only [List.map_cons]
    by_cases hp : p.1 = k
    · rw [if_pos hp]
      rw [List.find?_cons_of_neg _ (by simpa using Ne.symm hne),
          List.find?_cons_of_neg _ (by simp only [decide_eq_true_eq]; rw [hp]; exact Ne.symm hne)]
      exact ih
    · by_cases hp2 : p.1 = k2
      · rw [if_neg hp, List.find?_cons_of_pos _ (by simpa using hp2),
            List.find?_cons_of_pos _ (by simpa using hp2)]
      · rw [if_neg hp, List.find?_cons_of_neg _ (by simpa using hp2),
            List.find?_cons_of_neg _ (by simpa using hp2)]
        exact ih

theorem dictLookup_dictInsert_self (d : JsonObj) (k : String) (v : JsonVal) :
    dictLookup (dictInsert d k v) k = some v := by
  unfold dictInsert dictLookup
  by_cases h : d.any (fun p => p.1 = k)
  · rw [if_pos h, find?_overwrite_self d k v h]
    rfl
  · rw [if_neg h, List.find?_append]
    have hnone : d.find? (fun p => p.1 = k) = none := by
      rw [List.find?_eq_none]
      intro p hp
      simp only [List.any_eq_true, decide_eq_true_eq] at h
      simp only [decide_eq_true_eq]
      exact fun hk => h ⟨p, hp, hk⟩
    simp [hnone, List.find?]

theorem dictLookup_dictInsert_ne (d : JsonObj) (k k2 : String) (v : JsonVal)
    (hne : k2 ≠ k) : dictLookup (dictInsert d k v) k2 = dictLookup d k2 := by
  unfold dictInsert dictLookup
  by_cases h : d.any (fun p => p.1 = k)
  · rw [if_pos h, find?_overwrite_ne d k k2 v hne]
  · rw [if_neg h, List.find?_append]
    have hone : List.find? (fun p => p.1 = k2) [(k, v)] = none := by
      simp [List.find?, Ne.symm hne]
    rw [hone]
    cases d.find? (fun p => p.1 = k2) <;> rfl

theorem dictLookup_dictMerge_of_not_mem (b : JsonObj) (k : String)
    (hk : ¬ k ∈ dictKeys b) :
    ∀ a : JsonObj, dictLookup (dictMerge a b) k = dictLookup a k := by
  induction b with
  | nil => intro a; rfl
  | cons p t ih =>
    intro a
    simp only [dictKeys, List.map_cons, List.mem_cons] at hk
    push_neg at hk
    have hstep : dictMerge a (p :: t) = dictMerge (dictInsert a p.1 p.2) t := rfl
    rw [hstep, ih (by simpa [dictKeys] using hk.2) (dictInsert a p.1 p.2),
        dictLookup_dictInsert_ne a p.1 k p.2 hk.1]

theorem dictLookup_dictMerge_of_lookup (b : JsonObj) (k : String) (v : JsonVal)
    (hnd : (dictKeys b).Nodup) (h : dictLookup b k = some v) :
    ∀ a : JsonObj, dictLookup (dictMerge a b) k = some v := by
  induction b with
  | nil => simp [dictLookup] at h
  | cons p t ih =>
    intro a
    have hstep : dictMerge a (p :: t) = dictMerge (dictInsert a p.1 p.2) t := rfl
    simp only [dictKeys, List.map_cons, List.nodup_cons] at hnd
    by_cases hp : p.1 = k
    · have hv : v = p.2 := by
        unfold dictLookup at h
        rw [List.find?_cons_of_pos _ (by simpa using hp)] at h
        simpa using h.symm
      have hkt : ¬ k ∈ dictKeys t := by
        simpa [dictKeys, hp] using hnd.1
      have hins := dictLookup_dictInsert_self a p.1 p.2
      rw [hp] at hins
      rw [hstep, dictLookup_dictMerge_of_not_mem t k hkt (dictInsert a p.1 p.2), hp, hins, hv]
    · have ht : dictLookup t k = some v := by
        unfold dictLookup at h ⊢
        rwa [List.find?_cons_of_neg _ (by simpa using hp)] at h
      rw [hstep, ih hnd.2 ht (dictInsert a p.1 p.2)]

/-- Modelled from the spec: a Performance Session record (spec section 3).
The server implementation is not part of this repository; only its clients and
tests are, so the session store is reconstructed from the specification text.
`performanceDate` is in epoch seconds, `duration` in minutes. -/
structure Session : Type where
  pid : String
  artist : String
  title : String
  email : String
  description : String
  performanceDate : Int
  duration : Int
  status : Int
deriving Repr, DecidableEq

/-- Modelled from the spec: the claim set embedded in a signed token
(spec section 3: performance_id, artist, title, email, description,
performance_date and status are verifiable claims).  Signing is deterministic
given claims and secret, so a token is identified with its claims. -/
structure TokenClaims : Type where
  pid : String
  artist : String
  title : String
  email : String
  description : String
  performanceDate : Int
  status : Int
deriving Repr, DecidableEq

/-- Modelled from the spec: minting a token from the current session state
(a pure function of the session fields, re-invoked after every mutation). -/
def mint (s : Session) : TokenClaims :=
  { pid := s.pid, artist := s.artist, title := s.title, email := s.email,
    description := s.description, performanceDate := s.performanceDate,
    status := s.status }

/-- Modelled from the spec: server-to-client pushes and in-band error replies
on the persistent channel (spec section 6). -/
inductive ServerMsg : Type where
  | heartrateUpdate (heartrate : Int)
  | subscriberCountUpdate (activeSubscriptions : Nat)
  | performanceStatusUpdate (status : Int)
  | errorMsg (msg : String)
deriving Repr, DecidableEq

/-- Modelled from the spec: a subscriber channel — a live connection bound to
at most one performance id at a time, with a connected flag and the ordered
list of messages delivered to it (spec section 3, Subscriber Channel). -/
structure Channel : Type where
  cid : Nat
  subscribedTo : Option String
  connected : Bool
  inbox : List ServerMsg
deriving Repr, DecidableEq

/-- Modelled from the spec: the server state — the Session Store (live
sessions) and the Subscription Registry (channels). -/
structure ServerState : Type where
  sessions : List Session
  channels : List Channel
deriving Repr, DecidableEq

/-- ASCII upper-casing of a code point, for case-insensitive comparison. -/
def charKey (c : Char) : Nat :=
  if 97 ≤ c.toNat ∧ c.toNat ≤ 122 then c.toNat - 32 else c.toNat

/-- Modelled from the spec: performance ids compare case-insensitively
(spec section 3). -/
def pidEq (a b : String) : Bool :=
  a.data.map charKey == b.data.map charKey

/-- Modelled from the spec: Session Store lookup by performance id. -/
def findSession (st : ServerState) (pid : String) : Option Session :=
  st.sessions.find? (fun s => pidEq s.pid pid)

/-- End of the validity window: `performance_date + duration` (minutes). -/
def sessionEnd (s : Session) : Int :=
  s.performanceDate + s.duration * 60

/-- Modelled from the spec: a session still exists (is live) until its
validity window plus a grace period `gr` has elapsed (spec section 3). -/
def liveAt (gr now : Int) (s : Session) : Bool :=
  decide (now < sessionEnd s + gr)

/-- Modelled from the spec: a session is active while the wall-clock time is
within `[performance_date, performance_date + duration)` (spec section 3). -/
def activeAt (now : Int) (s : Session) : Bool :=
  decide (s.performanceDate ≤ now) && decide (now < sessionEnd s)

/-- Modelled from the spec: the accepted band for `performance_date` relative
to now — roughly 5 minutes in the past to 366 days in the future
(spec sections 3 and 8). -/
def dateInBand (now pd : Int) : Bool :=
  decide (now - 5 * 60 ≤ pd) && decide (pd ≤ now + 366 * 86400)

/-- Modelled from the spec: the bounded-string validation applied to artist
and title (at most 64 characters each, spec section 3). -/
def fieldsValid (artist title : String) : Bool :=
  decide (artist.length ≤ 64) && decide (title.length ≤ 64)

/-- Modelled from the spec: token verification — the token must name a live
session, and its claims must equal the session's current field values (any
field mutation invalidates the previous token, spec sections 3 and 4.1). -/
def verifyToken (gr now : Int) (tok : TokenClaims) (st : ServerState) : Option Session :=
  match findSession st tok.pid with
  | none => none
  | some s => if liveAt gr now s ∧ mint s = tok then some s else none

/-- Whether a channel binding refers to the given performance id. -/
def subMatches (sub : Option String) (pid : String) : Bool :=
  match sub with
  | some q => pidEq q pid
  | none => false

/-- One delivery attempt of the broadcast core: a subscribed, connected
channel receives the message; a subscribed but disconnected channel is
silently dropped from the subscription; other channels are untouched. -/
def broadcastStep (pid : String) (msg : ServerMsg) (c : Channel) : Channel :=
  if subMatches c.subscribedTo pid then
    if c.connected then { c with inbox := c.inbox ++ [msg] }
    else { c with subscribedTo := none }
  else c

/-- Modelled from the spec: broadcast delivery — iterate the subscribers of a
performance id and send to each; a send to a disconnected channel silently
removes that channel from the set and does not disturb the remaining
subscribers (spec section 4.4). -/
def broadcast (pid : String) (msg : ServerMsg) (st : ServerState) : ServerState :=
  { st with channels := st.channels.map (broadcastStep pid msg) }

/-- Modelled from the spec: session registration (spec section 4.2) —
validates field lengths and the `performance_date` band, creates the session
with `status = 0` and a fresh `performance_id` (freshness is a hypothesis of
the theorems below), and mints a token.  On failure the state is unchanged. -/
def register (now : Int) (pid artist title email description : String)
    (performanceDate duration : Int) (st : ServerState) :
    Except String TokenClaims × ServerState :=
  if ¬ fieldsValid artist title then (Except.error "field too long", st)
  else if ¬ dateInBand now performanceDate then (Except.error "date out of range", st)
  else
    let s : Session :=
      { pid := pid, artist := artist, title := title, email := email,
        description := description, performanceDate := performanceDate,
        duration := duration, status := 0 }
    (Except.ok (mint s), { st with sessions := st.sessions ++ [s] })

/-- A partial update: the subset of mutable fields present in the patch. -/
structure Patch : Type where
  artist : Option String := none
  title : Option String := none
  email : Option String := none
  description : Option String := none
  performanceDate : Option Int := none
deriving Repr, DecidableEq

/-- Applying a patch to a session: only the fields present are replaced. -/
def applyPatch (s : Session) (p : Patch) : Session :=
  { s with artist := p.artist.getD s.artist,
           title := p.title.getD s.title,
           email := p.email.getD s.email,
           description := p.description.getD s.description,
           performanceDate := p.performanceDate.getD s.performanceDate }

/-- Replace the session with the same performance id. -/
def replaceSession (st : ServerState) (s2 : Session) : ServerState :=
  { st with sessions := st.sessions.map (fun t => if pidEq t.pid s2.pid then s2 else t) }

/-- Modelled from the spec: session update (spec section 4.2) — verifies the
token, applies only the fields present in the patch, re-validates the combined
result with the same bounds as register, and re-mints the token.  Any invalid
field value rejects the entire update and leaves the state unchanged. -/
def update (gr now : Int) (tok : TokenClaims) (p : Patch) (st : ServerState) :
    Except String TokenClaims × ServerState :=
  match verifyToken gr now tok st with
  | none => (Except.error "invalid token", st)
  | some s =>
    let s2 := applyPatch s p
    if ¬ fieldsValid s2.artist s2.title then (Except.error "field too long", st)
    else if ¬ dateInBand now s2.performanceDate then (Except.error "date out of range", st)
    else (Except.ok (mint s2), replaceSession st s2)

/-- Modelled from the spec: session deletion (spec section 4.2) — requires a
valid, unexpired token matching a live session; removes it permanently.
Deleting an already-deleted or expired session is an error, not a no-op. -/
def delete (gr now : Int) (tok : TokenClaims) (st : ServerState) :
    Except String Unit × ServerState :=
  match verifyToken gr now tok st with
  | none => (Except.error "performance not found", st)
  | some s =>
    (Except.ok (),
     { st with sessions := st.sessions.filter (fun t => ¬ pidEq t.pid s.pid) })

/-- Modelled from the spec: the status query endpoint
(`GET /events/(id)/status`) — returns the status of a live session, an error
otherwise. -/
def getStatus (gr now : Int) (pid : String) (st : ServerState) : Except String Int :=
  match findSession st pid with
  | none => Except.error "performance not found"
  | some s => if liveAt gr now s then Except.ok s.status else Except.error "performance not found"

/-- Modelled from the spec: the status update operation (spec sections 4.2 and
4.3) — the token must correspond to the given performance id; on success the
status is stored, the token re-minted, and a `performance_status_update`
carrying the new status is broadcast to all current subscribers. -/
def setStatus (gr now : Int) (pid : String) (tok : TokenClaims) (v : Int)
    (st : ServerState) : Except String TokenClaims × ServerState :=
  match verifyToken gr now tok st with
  | none => (Except.error "invalid token", st)
  | some s =>
    if pidEq s.pid pid then
      let s2 := { s with status := v }
      (Except.ok (mint s2),
       broadcast s.pid (ServerMsg.performanceStatusUpdate v) (replaceSession st s2))
    else (Except.error "token mismatch", st)

/-- The number of connected subscribers of a performance id. -/
def countSubs (st : ServerState) (pid : String) : Nat :=
  (st.channels.filter (fun c => subMatches c.subscribedTo pid && c.connected)).length

/-- Modelled from the spec and the observed subscriber behaviour: `subscribe`
(spec section 4.4) — if the performance id does not resolve to a live session
the channel receives a single in-band error message and is not registered;
otherwise the channel is bound to the performance, immediately receives a
`performance_status_update` with the current status (the default `0` before
any change is observable this way), and a `subscriber_count_update` with the
new count is broadcast to the performance's subscribers. -/
def subscribe (gr now : Int) (cid : Nat) (pid : String) (st : ServerState) : ServerState :=
  match findSession st pid with
  | some s =>
    if liveAt gr now s then
      let st2 : ServerState :=
        { st with channels := st.channels.map (fun c =>
            if c.cid = cid then
              { c with subscribedTo := some pid,
                       inbox := if c.connected then
                           c.inbox ++ [ServerMsg.performanceStatusUpdate s.status]
                         else c.inbox }
            else c) }
      broadcast pid (ServerMsg.subscriberCountUpdate (countSubs st2 pid)) st2
    else
      { st with channels := st.channels.map (fun c =>
          if c.cid = cid ∧ c.connected then
            { c with inbox := c.inbox ++ [ServerMsg.errorMsg "unknown performance"] }
          else c) }
  | none =>
    { st with channels := st.channels.map (fun c =>
        if c.cid = cid ∧ c.connected then
          { c with inbox := c.inbox ++ [ServerMsg.errorMsg "unknown performance"] }
        else c) }

/-- Modelled from the spec: `publish` (spec section 4.4) — verifies the token
and checks the owning session is currently inside its active window; if not,
an error goes back to the publisher and no subscriber is touched.  On success
a `heartrate_update` is handed to the broadcast core. -/
def publish (gr now : Int) (tok : TokenClaims) (heartrate : Int) (st : ServerState) :
    Except String Unit × ServerState :=
  match verifyToken gr now tok st with
  | none => (Except.error "invalid token", st)
  | some s =>
    if activeAt now s then
      (Except.ok (), broadcast s.pid (ServerMsg.heartrateUpdate heartrate) st)
    else (Except.error "performance is not active", st)

/-- Publishing a fixed list of samples in order, threading the state. -/
def publishAll (gr now : Int) (tok : TokenClaims) (vs : List Int) (st : ServerState) :
    ServerState :=
  match vs with
  | [] => st
  | v :: rest => publishAll gr now tok rest (publish gr now tok v st).2

/-- The number of heartrate samples in an inbox. -/
def countHeartrates (l : List ServerMsg) : Nat :=
  (l.filter (fun m =>
    match m with
    | ServerMsg.heartrateUpdate _ => true
    | _ => false)).length

/-- Whether a reply is an error reply. -/
def isErr {α : Type} : Except String α → Bool
  | Except.error _ => true
  | Except.ok _ => false

theorem pidEq_refl (a : String) : pidEq a a = true := by
  simp [pidEq]

theorem pidEq_eq_true_iff (a b : String) :
    pidEq a b = true ↔ a.data.map charKey = b.data.map charKey := by
  simp [pidEq]

theorem verifyToken_some (gr now : Int) (tok : TokenClaims) (st : ServerState)
    (s : Session) (h : verifyToken gr now tok st = some s) :
    findSession st tok.pid = some s ∧ liveAt gr now s = true ∧ mint s = tok := by
  unfold verifyToken at h
  cases hf : findSession st tok.pid with
  | none =>
    rw [hf] at h
    exact absurd h (by simp)
  | some s1 =>
    rw [hf] at h
    dsimp only at h
    by_cases hc : liveAt gr now s1 = true ∧ mint s1 = tok
    · rw [if_pos hc] at h
      cases h
      exact ⟨rfl, hc.1, hc.2⟩
    · rw [if_neg hc] at h
      exact absurd h (by simp)

theorem findSession_eq_none_iff (st : ServerState) (pid : String) :
    findSession st pid = none ↔ ∀ s ∈ st.sessions, pidEq s.pid pid = false := by
  unfold findSession
  simp [List.find?_eq_none]

theorem subMatches_self (pid : String) : subMatches (some pid) pid = true := by
  simp [subMatches, pidEq_refl]

theorem broadcastStep_cid (pid : String) (msg : ServerMsg) (c : Channel) :
    (broadcastStep pid msg c).cid = c.cid := by
  unfold broadcastStep
  split
  · split <;> rfl
  · rfl

theorem broadcastStep_connected (pid : String) (msg : ServerMsg) (c : Channel) :
    (broadcastStep pid msg c).connected = c.connected := by
  unfold broadcastStep
  split
  · split <;> rfl
  · rfl

theorem broadcastStep_inbox_mono (pid : String) (msg m : ServerMsg) (c : Channel)
    (hm : m ∈ c.inbox) : m ∈ (broadcastStep pid msg c).inbox := by
  unfold broadcastStep
  split
  · split
    · simp [hm]
    · exact hm
  · exact hm

theorem broadcast_subscriber_inbox (pid : String) (msg : ServerMsg) (st : ServerState) :
    ∀ c ∈ (broadcast pid msg st).channels, c.subscribedTo = some pid →
      c.connected = true → ∃ pre, c.inbox = pre ++ [msg] := by
  intro c hc hsub hconn
  unfold broadcast at hc
  simp only [List.mem_map] at hc
  obtain ⟨c0, hc0, rfl⟩ := hc
  unfold broadcastStep at hsub ⊢
  by_cases hm : subMatches c0.subscribedTo pid = true
  · by_cases hcn : c0.connected = true
    · exact ⟨c0.inbox, by simp [hm, hcn]⟩
    · simp [hm, hcn] at hsub
  · simp only [hm] at hsub
    rw [if_neg (by simp [hm])] at hsub
    rw [hsub, subMatches_self] at hm
    exact absurd rfl hm

theorem broadcast_sessions (pid : String) (msg : ServerMsg) (st : ServerState) :
    (broadcast pid msg st).sessions = st.sessions := rfl

theorem dictLookup_eq_none_not_mem (b : JsonObj) (k : String)
    (h : dictLookup b k = none) : ¬ k ∈ dictKeys b := by
  intro hmem
  unfold dictKeys at hmem
  simp only [List.mem_map] at hmem
  obtain ⟨p, hp, hk⟩ := hmem
  unfold dictLookup at h
  cases hf : b.find? (fun p => p.1 = k) with
  | some q =>
    rw [hf] at h
    simp at h
  | none =>
    rw [List.find?_eq_none] at hf
    exact absurd (by simpa using hk) (by simpa using hf p hp)

/-- C9: `update(token, updated_info)` on `Client`, `WSClient` and `RESTClient`
sends the merge of an action/token base object with `updated_info`, keys of
`updated_info` taking precedence: any key present in `updated_info` keeps its
value in the sent payload, and in particular a `token` or `action` key in
`updated_info` replaces the token argument or the `update` action. -/
theorem spec_C9 (token : JsonVal) (info : JsonObj)
    (hnd : (dictKeys info).Nodup) :
    (Client.updatePayload token info
        = dictMerge [("action", JsonVal.str "update"), ("token", token)] info
      ∧ WSClient.updatePayload token info
        = dictMerge [("action", JsonVal.str "update"), ("token", token)] info
      ∧ RESTClient.updatePayload token info
        = dictMerge [("action", JsonVal.str "update"), ("token", token)] info)
    ∧ (∀ k v, dictLookup info k = some v →
        dictLookup (Client.updatePayload token info) k = some v
        ∧ dictLookup (WSClient.updatePayload token info) k = some v
        ∧ dictLookup (RESTClient.updatePayload token info) k = some v)
    ∧ (dictLookup info "token" = none →
        dictLookup (Client.updatePayload token info) "token" = some token
        ∧ dictLookup (WSClient.updatePayload token info) "token" = some token
        ∧ dictLookup (RESTClient.updatePayload token info) "token" = some token)
    ∧ (dictLookup info "action" = none →
        dictLookup (Client.updatePayload token info) "action" = some (JsonVal.str "update")
        ∧ dictLookup (WSClient.updatePayload token info) "action" = some (JsonVal.str "update")
        ∧ dictLookup (RESTClient.updatePayload token info) "action" = some (JsonVal.str "update")) := by
  refine ⟨⟨rfl, rfl, rfl⟩, ?_, ?_, ?_⟩
  · intro k v hv
    have h := dictLookup_dictMerge_of_lookup info k v hnd hv
      [("action", JsonVal.str "update"), ("token", token)]
    exact ⟨h, h, h⟩
  · intro hnone
    have h := dictLookup_dictMerge_of_not_mem info "token"
      (dictLookup_eq_none_not_mem info "token" hnone)
      [("action", JsonVal.str "update"), ("token", token)]
    have hbase : dictLookup [("action", JsonVal.str "update"), ("token", token)] "token"
        = some token := by
      simp [dictLookup, List.find?]
    rw [hbase] at h
    exact ⟨h, h, h⟩
  · intro hnone
    have h := dictLookup_dictMerge_of_not_mem info "action"
      (dictLookup_eq_none_not_mem info "action" hnone)
      [("action", JsonVal.str "update"), ("token", token)]
    have hbase : dictLookup [("action", JsonVal.str "update"), ("token", token)] "action"
        = some (JsonVal.str "update") := by
      simp [dictLookup, List.find?]
    rw [hbase] at h
    exact ⟨h, h, h⟩

/-- Witness for C9 at a concrete input: token `"tok0"` and an update patch
that carries its own `token` and `artist` keys. -/
theorem spec_C9_witness :
    (dictKeys [("artist", JsonVal.str "DJFurioso"), ("token", JsonVal.str "other")]).Nodup
    ∧ ((Client.updatePayload (JsonVal.str "tok0")
          [("artist", JsonVal.str "DJFurioso"), ("token", JsonVal.str "other")]
        = dictMerge [("action", JsonVal.str "update"), ("token", JsonVal.str "tok0")]
            [("artist", JsonVal.str "DJFurioso"), ("token", JsonVal.str "other")]
      ∧ WSClient.updatePayload (JsonVal.str "tok0")
          [("artist", JsonVal.str "DJFurioso"), ("token", JsonVal.str "other")]
        = dictMerge [("action", JsonVal.str "update"), ("token", JsonVal.str "tok0")]
            [("artist", JsonVal.str "DJFurioso"), ("token", JsonVal.str "other")]
      ∧ RESTClient.updatePayload (JsonVal.str "tok0")
          [("artist", JsonVal.str "DJFurioso"), ("token", JsonVal.str "other")]
        = dictMerge [("action", JsonVal.str "update"), ("token", JsonVal.str "tok0")]
            [("artist", JsonVal.str "DJFurioso"), ("token", JsonVal.str "other")])
    ∧ (∀ k v, dictLookup [("artist", JsonVal.str "DJFurioso"), ("token", JsonVal.str "other")] k = some v →
        dictLookup (Client.updatePayload (JsonVal.str "tok0")
          [("artist", JsonVal.str "DJFurioso"), ("token", JsonVal.str "other")]) k = some v
        ∧ dictLookup (WSClient.updatePayload (JsonVal.str "tok0")
          [("artist", JsonVal.str "DJFurioso"), ("token", JsonVal.str "other")]) k = some v
        ∧ dictLookup (RESTClient.updatePayload (JsonVal.str "tok0")
          [("artist", JsonVal.str "DJFurioso"), ("token", JsonVal.str "other")]) k = some v)
    ∧ (dictLookup [("artist", JsonVal.str "DJFurioso"), ("token", JsonVal.str "other")] "token" = none →
        dictLookup (Client.updatePayload (JsonVal.str "tok0")
          [("artist", JsonVal.str "DJFurioso"), ("token", JsonVal.str "other")]) "token" = some (JsonVal.str "tok0")
        ∧ dictLookup (WSClient.updatePayload (JsonVal.str "tok0")
          [("artist", JsonVal.str "DJFurioso"), ("token", JsonVal.str "other")]) "token" = some (JsonVal.str "tok0")
        ∧ dictLookup (RESTClient.updatePayload (JsonVal.str "tok0")
          [("artist", JsonVal.str "DJFurioso"), ("token", JsonVal.str "other")]) "token" = some (JsonVal.str "tok0"))
    ∧ (dictLookup [("artist", JsonVal.str "DJFurioso"), ("token", JsonVal.str "other")] "action" = none →
        dictLookup (Client.updatePayload (JsonVal.str "tok0")
          [("artist", JsonVal.str "DJFurioso"), ("token", JsonVal.str "other")]) "action" = some (JsonVal.str "update")
        ∧ dictLookup (WSClient.updatePayload (JsonVal.str "tok0")
          [("artist", JsonVal.str "DJFurioso"), ("token", JsonVal.str "other")]) "action" = some (JsonVal.str "update")
        ∧ dictLookup (RESTClient.updatePayload (JsonVal.str "tok0")
          [("artist", JsonVal.str "DJFurioso"), ("token", JsonVal.str "other")]) "action" = some (JsonVal.str "update"))) :=
  ⟨by decide,
   spec_C9 (JsonVal.str "tok0")
     [("artist", JsonVal.str "DJFurioso"), ("token", JsonVal.str "other")] (by decide)⟩

/-- C10: `RESTClient.register` replaces a negative integer `performance_date`
(including the default `-1`) by the current epoch timestamp taken at call
time, while a non-negative integer or a string date is forwarded unchanged. -/
theorem spec_C10 (now : Int) (artist title email description : String)
    (duration : Int) (n m : Int) (s : String) (hneg : n < 0) (hpos : 0 ≤ m) :
    dictLookup (RESTClient.registerPayload now artist title email description
        duration (DateArg.int n)) "performance_date" = some (JsonVal.num now)
    ∧ dictLookup (RESTClient.registerPayload now artist title email description
        duration (DateArg.int m)) "performance_date" = some (JsonVal.num m)
    ∧ dictLookup (RESTClient.registerPayload now artist title email description
        duration (DateArg.str s)) "performance_date" = some (JsonVal.str s)
    ∧ dictLookup (RESTClient.registerPayload now artist title email description
        duration) "performance_date" = some (JsonVal.num now) := by
  have hm : ¬ m < 0 := not_lt.mpr hpos
  refine ⟨?_, ?_, ?_, ?_⟩ <;>
    simp [RESTClient.registerPayload, dictLookup, List.find?, DateArg.toJson, hneg, hm]

/-- Witness for C10 at a concrete input: call time 1700000000, the explicit
default `-1`, the non-negative date 1700000100 and the string date
`"2023-11-14T22:13:20"`. -/
theorem spec_C10_witness :
    dictLookup (RESTClient.registerPayload 1700000000 "DJFury" "FreshBeats"
        "a@b.c" "desc" 1 (DateArg.int (-1))) "performance_date"
      = some (JsonVal.num 1700000000)
    ∧ dictLookup (RESTClient.registerPayload 1700000000 "DJFury" "FreshBeats"
        "a@b.c" "desc" 1 (DateArg.int 1700000100)) "performance_date"
      = some (JsonVal.num 1700000100)
    ∧ dictLookup (RESTClient.registerPayload 1700000000 "DJFury" "FreshBeats"
        "a@b.c" "desc" 1 (DateArg.str "2023-11-14T22:13:20")) "performance_date"
      = some (JsonVal.str "2023-11-14T22:13:20")
    ∧ dictLookup (RESTClient.registerPayload 1700000000 "DJFury" "FreshBeats"
        "a@b.c" "desc" 1) "performance_date" = some (JsonVal.num 1700000000) :=
  spec_C10 1700000000 "DJFury" "FreshBeats" "a@b.c" "desc" 1 (-1) 1700000100
    "2023-11-14T22:13:20" (by decide) (by decide)

/-- C8: the claim says the 2-field `register` defaults `performance_date` to
the current time at the moment of the call; in the code the Python default
expression is evaluated once at import time, so a call made at time 5000 in a
process imported at time 1000 sends `performance_date = 1000`, not 5000. -/
theorem spec_C8 :
    dictLookup (WSClient.registerPayload 1000 "DJFury" "FreshBeats" none)
        "performance_date" = some (JsonVal.num 1000)
    ∧ dictLookup (Client.registerPayload 1000 "DJFury" "FreshBeats" none)
        "performance_date" = some (JsonVal.num 1000)
    ∧ dictLookup (WSClient.registerPayload 1000 "DJFury" "FreshBeats" none)
        "performance_date" ≠ some (JsonVal.num 5000)
    ∧ dictLookup (Client.registerPayload 1000 "DJFury" "FreshBeats" none)
        "performance_date" ≠ some (JsonVal.num 5000) := by
  refine ⟨by decide, by decide, by decide, by decide⟩

/-- C5: registering with an artist or title longer than 64 characters, or with
a `performance_date` more than 5 minutes in the past or more than 366 days in
the future of the current time, returns a validation error and creates no
session (the state is unchanged). -/
theorem spec_C5 (now : Int) (st : ServerState)
    (pid1 a1 t1 e1 d1 : String) (pd1 dur1 : Int)
    (hlen : 64 < a1.length ∨ 64 < t1.length)
    (pid2 a2 t2 e2 d2 : String) (pd2 dur2 : Int)
    (hdate : pd2 < now - 5 * 60 ∨ now + 366 * 86400 < pd2) :
    (isErr (register now pid1 a1 t1 e1 d1 pd1 dur1 st).1 = true
      ∧ (register now pid1 a1 t1 e1 d1 pd1 dur1 st).2 = st)
    ∧ (isErr (register now pid2 a2 t2 e2 d2 pd2 dur2 st).1 = true
      ∧ (register now pid2 a2 t2 e2 d2 pd2 dur2 st).2 = st) := by
  constructor
  · have hf : fieldsValid a1 t1 = false := by
      unfold fieldsValid
      rcases hlen with h | h
      · simp [Nat.not_le.mpr h]
      · simp [Nat.not_le.mpr h]
    unfold register
    rw [hf]
    simp [isErr]
  · have hd : dateInBand now pd2 = false := by
      unfold dateInBand
      rcases hdate with h | h
      · rw [decide_eq_false (p := now - 5 * 60 ≤ pd2) (by omega), Bool.false_and]
      · rw [decide_eq_false (p := pd2 ≤ now + 366 * 86400) (by omega), Bool.and_false]
    by_cases hf : fieldsValid a2 t2 = true
    · unfold register
      rw [hf, hd]
      simp [isErr]
    · unfold register
      rw [Bool.not_eq_true] at hf
      rw [hf]
      simp [isErr]

/-- Witness for C5: a 65-character artist, and a date 6 minutes in the past,
against the empty server state at time 1000000. -/
theorem spec_C5_witness :
    (64 < (String.mk (List.replicate 65 'A')).length ∨ 64 < "B".length)
    ∧ ((1000000 - 360 : Int) < 1000000 - 5 * 60 ∨ (1000000 : Int) + 366 * 86400 < 1000000 - 360)
    ∧ ((isErr (register 1000000 "ABC123" (String.mk (List.replicate 65 'A')) "B" "e" "d"
          1000000 1 ⟨[], []⟩).1 = true
      ∧ (register 1000000 "ABC123" (String.mk (List.replicate 65 'A')) "B" "e" "d"
          1000000 1 ⟨[], []⟩).2 = ⟨[], []⟩)
      ∧ (isErr (register 1000000 "DEF456" "DJFury" "FreshBeats" "e" "d"
          (1000000 - 360) 1 ⟨[], []⟩).1 = true
        ∧ (register 1000000 "DEF456" "DJFury" "FreshBeats" "e" "d"
            (1000000 - 360) 1 ⟨[], []⟩).2 = ⟨[], []⟩)) :=
  ⟨by decide, by decide,
   spec_C5 1000000 ⟨[], []⟩ "ABC123" (String.mk (List.replicate 65 'A')) "B" "e" "d"
     1000000 1 (by decide) "DEF456" "DJFury" "FreshBeats" "e" "d" (1000000 - 360) 1
     (by decide)⟩

/-- C2: publishing with a token for a session whose validity window has not
yet started, or has already ended, yields an error reply to the publisher and
the sample is never delivered to any subscriber (the state, and with it every
subscriber inbox, is unchanged). -/
theorem spec_C2 (gr now : Int) (st : ServerState) (s : Session) (tok : TokenClaims)
    (hfind : findSession st tok.pid = some s)
    (hout : now < s.performanceDate ∨ sessionEnd s ≤ now) (v : Int) :
    isErr (publish gr now tok v st).1 = true ∧ (publish gr now tok v st).2 = st := by
  have hact : activeAt now s = false := by
    unfold activeAt
    rcases hout with h | h
    · rw [decide_eq_false (p := s.performanceDate ≤ now) (by omega), Bool.false_and]
    · rw [decide_eq_false (p := now < sessionEnd s) (by omega), Bool.and_false]
  unfold publish verifyToken
  rw [hfind]
  dsimp only
  by_cases hc : liveAt gr now s = true ∧ mint s = tok
  · rw [if_pos hc]
    dsimp only
    rw [hact]
    simp [isErr]
  · rw [if_neg hc]
    simp [isErr]

/-- Witness for C2: a session starting at time 2000 (window [2000, 2060)),
publish attempted at time 1000, before the window opens. -/
theorem spec_C2_witness :
    (findSession
        ⟨[⟨"ABC123", "DJFury", "FreshBeats", "e", "d", 2000, 1, 0⟩],
         [⟨0, some "ABC123", true, []⟩]⟩
        (mint ⟨"ABC123", "DJFury", "FreshBeats", "e", "d", 2000, 1, 0⟩).pid
      = some ⟨"ABC123", "DJFury", "FreshBeats", "e", "d", 2000, 1, 0⟩)
    ∧ ((1000 : Int) < 2000 ∨ sessionEnd ⟨"ABC123", "DJFury", "FreshBeats", "e", "d", 2000, 1, 0⟩ ≤ 1000)
    ∧ (isErr (publish 61 1000 (mint ⟨"ABC123", "DJFury", "FreshBeats", "e", "d", 2000, 1, 0⟩) 100
        ⟨[⟨"ABC123", "DJFury", "FreshBeats", "e", "d", 2000, 1, 0⟩],
         [⟨0, some "ABC123", true, []⟩]⟩).1 = true
      ∧ (publish 61 1000 (mint ⟨"ABC123", "DJFury", "FreshBeats", "e", "d", 2000, 1, 0⟩) 100
          ⟨[⟨"ABC123", "DJFury", "FreshBeats", "e", "d", 2000, 1, 0⟩],
           [⟨0, some "ABC123", true, []⟩]⟩).2
        = ⟨[⟨"ABC123", "DJFury", "FreshBeats", "e", "d", 2000, 1, 0⟩],
           [⟨0, some "ABC123", true, []⟩]⟩) :=
  ⟨by decide, by decide,
   spec_C2 61 1000
     ⟨[⟨"ABC123", "DJFury", "FreshBeats", "e", "d", 2000, 1, 0⟩],
      [⟨0, some "ABC123", true, []⟩]⟩
     ⟨"ABC123", "DJFury", "FreshBeats", "e", "d", 2000, 1, 0⟩
     (mint ⟨"ABC123", "DJFury", "FreshBeats", "e", "d", 2000, 1, 0⟩)
     (by decide) (by decide) 100⟩

/-- C3: for every registered session, an update request whose patch contains
an oversized artist or title value, an update with a bogus token (any patch),
and an update whose patch contains an out-of-window `performance_date` — each
with arbitrary further fields in the patch — returns an error and leaves the
prior session state entirely unchanged: no field of the patch is partially
applied. -/
theorem spec_C3 (gr now : Int) (st : ServerState) (tok : TokenClaims) (s : Session)
    (hv : verifyToken gr now tok st = some s)
    (p1 : Patch)
    (hbig : (∃ a, p1.artist = some a ∧ 64 < a.length)
      ∨ (∃ t, p1.title = some t ∧ 64 < t.length))
    (bogus : TokenClaims) (hbogus : verifyToken gr now bogus st = none) (p2 : Patch)
    (p3 : Patch) (badPd : Int) (hp3 : p3.performanceDate = some badPd)
    (hbad : badPd < now - 5 * 60 ∨ now + 366 * 86400 < badPd) :
    (isErr (update gr now tok p1 st).1 = true ∧ (update gr now tok p1 st).2 = st)
    ∧ (isErr (update gr now bogus p2 st).1 = true
      ∧ (update gr now bogus p2 st).2 = st)
    ∧ (isErr (update gr now tok p3 st).1 = true ∧ (update gr now tok p3 st).2 = st) := by
  refine ⟨?_, ?_, ?_⟩
  · have hf : fieldsValid (applyPatch s p1).artist (applyPatch s p1).title = false := by
      rcases hbig with ⟨a, ha, hlen⟩ | ⟨t, ht, hlen⟩
      · have hart : (applyPatch s p1).artist = a := by
          unfold applyPatch
          dsimp only
          rw [ha]
          rfl
        unfold fieldsValid
        rw [hart, decide_eq_false (p := a.length ≤ 64) (by omega), Bool.false_and]
      · have htit : (applyPatch s p1).title = t := by
          unfold applyPatch
          dsimp only
          rw [ht]
          rfl
        unfold fieldsValid
        rw [htit, decide_eq_false (p := t.length ≤ 64) (by omega), Bool.and_false]
    have hres : update gr now tok p1 st = (Except.error "field too long", st) := by
      unfold update
      rw [hv]
      dsimp only
      rw [hf]
      simp
    rw [hres]
    exact ⟨rfl, rfl⟩
  · have hres : update gr now bogus p2 st = (Except.error "invalid token", st) := by
      unfold update
      rw [hbogus]
    rw [hres]
    exact ⟨rfl, rfl⟩
  · have hpd : (applyPatch s p3).performanceDate = badPd := by
      unfold applyPatch
      dsimp only
      rw [hp3]
      rfl
    have hd : dateInBand now (applyPatch s p3).performanceDate = false := by
      rw [hpd]
      unfold dateInBand
      rcases hbad with h | h
      · rw [decide_eq_false (p := now - 5 * 60 ≤ badPd) (by omega), Bool.false_and]
      · rw [decide_eq_false (p := badPd ≤ now + 366 * 86400) (by omega), Bool.and_false]
    by_cases hf : fieldsValid (applyPatch s p3).artist (applyPatch s p3).title = true
    · have hres : update gr now tok p3 st = (Except.error "date out of range", st) := by
        unfold update
        rw [hv]
        dsimp only
        rw [hf, hd]
        simp
      rw [hres]
      exact ⟨rfl, rfl⟩
    · rw [Bool.not_eq_true] at hf
      have hres : update gr now tok p3 st = (Except.error "field too long", st) := by
        unfold update
        rw [hv]
        dsimp only
        rw [hf]
        simp
      rw [hres]
      exact ⟨rfl, rfl⟩

/-- A concrete live session: performance `ABC123`, window [990, 1050). -/
def sampleSession : Session :=
  ⟨"ABC123", "DJFury", "FreshBeats", "e", "d", 990, 1, 0⟩

/-- A concrete server state holding just `sampleSession` and no channels. -/
def sampleState : ServerState :=
  ⟨[sampleSession], []⟩

/-- A 65-character artist name, one over the limit. -/
def longArtist : String :=
  String.mk (List.replicate 65 'A')

/-- A token naming a performance id that does not exist in `sampleState`. -/
def bogusTok : TokenClaims :=
  ⟨"ZZZ999", "x", "y", "e", "d", 990, 0⟩

/-- A multi-field patch carrying a 65-character title next to otherwise valid
new values. -/
def bigTitlePatch : Patch :=
  { artist := some "DJFurioso", title := some longArtist, performanceDate := some 995 }

/-- A multi-field patch resetting `performance_date` to the out-of-window
epoch 0 next to an otherwise valid artist change. -/
def badDatePatch : Patch :=
  { artist := some "DJFurioso", performanceDate := some 0 }

/-- Witness for C3: the session `sampleSession` at time 1000 with a
multi-field patch carrying a 65-character title, a bogus token naming an
unknown performance, and a multi-field patch resetting `performance_date` to
the out-of-window epoch 0. -/
theorem spec_C3_witness :
    (isErr (update 61 1000 (mint sampleSession) bigTitlePatch sampleState).1 = true
      ∧ (update 61 1000 (mint sampleSession) bigTitlePatch sampleState).2 = sampleState)
    ∧ (isErr (update 61 1000 bogusTok {} sampleState).1 = true
      ∧ (update 61 1000 bogusTok {} sampleState).2 = sampleState)
    ∧ (isErr (update 61 1000 (mint sampleSession) badDatePatch sampleState).1 = true
      ∧ (update 61 1000 (mint sampleSession) badDatePatch sampleState).2 = sampleState) :=
  spec_C3 61 1000 sampleState (mint sampleSession) sampleSession (by decide)
    bigTitlePatch (Or.inr ⟨longArtist, rfl, by decide⟩)
    bogusTok (by decide) {} badDatePatch 0 rfl (by decide)

/-- C4: deleting a registered session with its valid token succeeds exactly
once — a second delete with the same token returns an error and leaves the
state as after the first delete, and a delete attempted after the session's
validity window (plus grace) has elapsed returns an error and changes
nothing. -/
theorem spec_C4 (gr now now2 : Int) (st : ServerState) (tok : TokenClaims) (s : Session)
    (hv : verifyToken gr now tok st = some s)
    (hexp : sessionEnd s + gr ≤ now2) :
    (delete gr now tok st).1 = Except.ok ()
    ∧ isErr (delete gr now tok (delete gr now tok st).2).1 = true
    ∧ (delete gr now tok (delete gr now tok st).2).2 = (delete gr now tok st).2
    ∧ isErr (delete gr now2 tok st).1 = true
    ∧ (delete gr now2 tok st).2 = st := by
  obtain ⟨hfind, hlive, hmint⟩ := verifyToken_some gr now tok st s hv
  have h1 : delete gr now tok st
      = (Except.ok (),
         { st with sessions := st.sessions.filter (fun t => ¬ pidEq t.pid s.pid) }) := by
    unfold delete
    rw [hv]
  have hpids : pidEq s.pid tok.pid = true := by
    have := List.find?_some hfind
    simpa using this
  have hnone : findSession
      { st with sessions := st.sessions.filter (fun t => ¬ pidEq t.pid s.pid) }
      tok.pid = none := by
    rw [findSession_eq_none_iff]
    intro t ht
    rw [List.mem_filter] at ht
    have hne : pidEq t.pid s.pid = false := by
      have := ht.2
      simp only [decide_eq_true_eq, Bool.not_eq_true] at this
      exact this
    cases hq : pidEq t.pid tok.pid
    · rfl
    · exfalso
      have e1 := (pidEq_eq_true_iff _ _).mp hq
      have e2 := (pidEq_eq_true_iff _ _).mp hpids
      have : pidEq t.pid s.pid = true := by
        rw [pidEq_eq_true_iff, e1, ← e2]
      rw [this] at hne
      cases hne
  have h2 : delete gr now tok
      { st with sessions := st.sessions.filter (fun t => ¬ pidEq t.pid s.pid) }
      = (Except.error "performance not found",
         { st with sessions := st.sessions.filter (fun t => ¬ pidEq t.pid s.pid) }) := by
    unfold delete verifyToken
    rw [hnone]
  have hdead : liveAt gr now2 s = false := by
    unfold liveAt
    exact decide_eq_false (by omega)
  have h3 : delete gr now2 tok st = (Except.error "performance not found", st) := by
    unfold delete verifyToken
    rw [hfind]
    dsimp only
    rw [if_neg (by rw [hdead]; simp)]
  rw [h1, h2, h3]
  exact ⟨rfl, rfl, rfl, rfl, rfl⟩

/-- Witness for C4: deleting `sampleSession` at time 1000 with its minted
token, then again; and a delete attempt at time 1200, past the end of the
window (1050) plus the 61-second grace. -/
theorem spec_C4_witness :
    (delete 61 1000 (mint sampleSession) sampleState).1 = Except.ok ()
    ∧ isErr (delete 61 1000 (mint sampleSession)
        (delete 61 1000 (mint sampleSession) sampleState).2).1 = true
    ∧ (delete 61 1000 (mint sampleSession)
        (delete 61 1000 (mint sampleSession) sampleState).2).2
      = (delete 61 1000 (mint sampleSession) sampleState).2
    ∧ isErr (delete 61 1200 (mint sampleSession) sampleState).1 = true
    ∧ (delete 61 1200 (mint sampleSession) sampleState).2 = sampleState :=
  spec_C4 61 1000 1200 sampleState (mint sampleSession) sampleSession
    (by decide) (by decide)

/-- Selection of exactly one mutable field together with its new value, for
stating the single-field-update frame property. -/
inductive FieldSel : Type where
  | artist (a : String)
  | title (t : String)
  | email (e : String)
  | description (d : String)
  | performanceDate (pd : Int)
deriving Repr, DecidableEq

/-- The patch that changes exactly the selected field. -/
def FieldSel.toPatch : FieldSel → Patch
  | FieldSel.artist a => { artist := some a }
  | FieldSel.title t => { title := some t }
  | FieldSel.email e => { email := some e }
  | FieldSel.description d => { description := some d }
  | FieldSel.performanceDate pd => { performanceDate := some pd }

/-- C6: a successful update that changes exactly one field produces a new
token whose `performance_id` claim equals the original, whose claim for the
mutated field equals the new value, and whose every other claim is unchanged
from the previous token's claims. -/
theorem spec_C6 (gr now : Int) (st : ServerState) (tok : TokenClaims) (s : Session)
    (hv : verifyToken gr now tok st = some s) (f : FieldSel)
    (hfields : fieldsValid (applyPatch s f.toPatch).artist
        (applyPatch s f.toPatch).title = true)
    (hdate : dateInBand now (applyPatch s f.toPatch).performanceDate = true) :
    (update gr now tok f.toPatch st).1 = Except.ok (mint (applyPatch s f.toPatch))
    ∧ (mint (applyPatch s f.toPatch)).pid = tok.pid
    ∧ (match f with
       | FieldSel.artist a =>
           (mint (applyPatch s f.toPatch)).artist = a
           ∧ (mint (applyPatch s f.toPatch)).title = tok.title
           ∧ (mint (applyPatch s f.toPatch)).email = tok.email
           ∧ (mint (applyPatch s f.toPatch)).description = tok.description
           ∧ (mint (applyPatch s f.toPatch)).performanceDate = tok.performanceDate
           ∧ (mint (applyPatch s f.toPatch)).status = tok.status
       | FieldSel.title t =>
           (mint (applyPatch s f.toPatch)).title = t
           ∧ (mint (applyPatch s f.toPatch)).artist = tok.artist
           ∧ (mint (applyPatch s f.toPatch)).email = tok.email
           ∧ (mint (applyPatch s f.toPatch)).description = tok.description
           ∧ (mint (applyPatch s f.toPatch)).performanceDate = tok.performanceDate
           ∧ (mint (applyPatch s f.toPatch)).status = tok.status
       | FieldSel.email e =>
           (mint (applyPatch s f.toPatch)).email = e
           ∧ (mint (applyPatch s f.toPatch)).artist = tok.artist
           ∧ (mint (applyPatch s f.toPatch)).title = tok.title
           ∧ (mint (applyPatch s f.toPatch)).description = tok.description
           ∧ (mint (applyPatch s f.toPatch)).performanceDate = tok.performanceDate
           ∧ (mint (applyPatch s f.toPatch)).status = tok.status
       | FieldSel.description d =>
           (mint (applyPatch s f.toPatch)).description = d
           ∧ (mint (applyPatch s f.toPatch)).artist = tok.artist
           ∧ (mint (applyPatch s f.toPatch)).title = tok.title
           ∧ (mint (applyPatch s f.toPatch)).email = tok.email
           ∧ (mint (applyPatch s f.toPatch)).performanceDate = tok.performanceDate
           ∧ (mint (applyPatch s f.toPatch)).status = tok.status
       | FieldSel.performanceDate pd =>
           (mint (applyPatch s f.toPatch)).performanceDate = pd
           ∧ (mint (applyPatch s f.toPatch)).artist = tok.artist
           ∧ (mint (applyPatch s f.toPatch)).title = tok.title
           ∧ (mint (applyPatch s f.toPatch)).email = tok.email
           ∧ (mint (applyPatch s f.toPatch)).description = tok.description
           ∧ (mint (applyPatch s f.toPatch)).status = tok.status) := by
  obtain ⟨hfind, hlive, hmint⟩ := verifyToken_some gr now tok st s hv
  refine ⟨?_, ?_, ?_⟩
  · unfold update
    rw [hv]
    dsimp only
    rw [if_neg (by rw [hfields]; simp), if_neg (by rw [hdate]; simp)]
  · rw [← hmint]
    cases f <;> simp [mint, applyPatch, FieldSel.toPatch]
  · rw [← hmint]
    cases f <;> simp [mint, applyPatch, FieldSel.toPatch]

/-- Witness for C6: changing only the artist of `sampleSession` to
`DJFurioso` at time 1000. -/
theorem spec_C6_witness :
    (update 61 1000 (mint sampleSession) (FieldSel.artist "DJFurioso").toPatch sampleState).1
      = Except.ok (mint (applyPatch sampleSession (FieldSel.artist "DJFurioso").toPatch))
    ∧ (mint (applyPatch sampleSession (FieldSel.artist "DJFurioso").toPatch)).pid
      = (mint sampleSession).pid
    ∧ ((mint (applyPatch sampleSession (FieldSel.artist "DJFurioso").toPatch)).artist
        = "DJFurioso"
      ∧ (mint (applyPatch sampleSession (FieldSel.artist "DJFurioso").toPatch)).title
        = (mint sampleSession).title
      ∧ (mint (applyPatch sampleSession (FieldSel.artist "DJFurioso").toPatch)).email
        = (mint sampleSession).email
      ∧ (mint (applyPatch sampleSession (FieldSel.artist "DJFurioso").toPatch)).description
        = (mint sampleSession).description
      ∧ (mint (applyPatch sampleSession (FieldSel.artist "DJFurioso").toPatch)).performanceDate
        = (mint sampleSession).performanceDate
      ∧ (mint (applyPatch sampleSession (FieldSel.artist "DJFurioso").toPatch)).status
        = (mint sampleSession).status) :=
  spec_C6 61 1000 sampleState (mint sampleSession) sampleSession (by decide)
    (FieldSel.artist "DJFurioso") (by decide) (by decide)

theorem subscribe_sessions (gr now : Int) (cid : Nat) (pid : String) (st : ServerState) :
    (subscribe gr now cid pid st).sessions = st.sessions := by
  unfold subscribe
  cases findSession st pid with
  | none => rfl
  | some s =>
    dsimp only
    by_cases h : liveAt gr now s = true
    · rw [if_pos h]
      rfl
    · rw [if_neg h]

/-- C7: after registering a performance, the status-query endpoint reports the
default status `0`, a subscriber immediately receives a
`performance_status_update` carrying that default, and after `set_status v`
the query endpoint reports `v` and every current connected subscriber of the
performance receives a `performance_status_update` carrying `v`. -/
theorem spec_C7 (gr now : Int) (st0 : ServerState)
    (pid artist title email description : String) (pd dur : Int) (cid : Nat) (v : Int)
    (hfields : fieldsValid artist title = true)
    (hdate : dateInBand now pd = true)
    (hfresh : findSession st0 pid = none)
    (hlive : now < pd + dur * 60 + gr)
    (hconn : ∀ c ∈ st0.channels, c.cid = cid → c.connected = true) :
    ∃ tok st1,
      register now pid artist title email description pd dur st0 = (Except.ok tok, st1)
      ∧ getStatus gr now pid st1 = Except.ok 0
      ∧ (∀ c ∈ (subscribe gr now cid pid st1).channels, c.cid = cid →
          ServerMsg.performanceStatusUpdate 0 ∈ c.inbox)
      ∧ (setStatus gr now pid tok v (subscribe gr now cid pid st1)).1
          = Except.ok { tok with status := v }
      ∧ getStatus gr now pid (setStatus gr now pid tok v (subscribe gr now cid pid st1)).2
          = Except.ok v
      ∧ (∀ c ∈ (setStatus gr now pid tok v (subscribe gr now cid pid st1)).2.channels,
          c.subscribedTo = some pid → c.connected = true →
          ∃ pre, c.inbox = pre ++ [ServerMsg.performanceStatusUpdate v]) := by
  have hfindNone : st0.sessions.find? (fun s => pidEq s.pid pid) = none := hfresh
  have hfind1 : findSession
      { st0 with sessions :=
          st0.sessions ++ [(⟨pid, artist, title, email, description, pd, dur, 0⟩ : Session)] }
      pid = some ⟨pid, artist, title, email, description, pd, dur, 0⟩ := by
    unfold findSession
    dsimp only
    rw [List.find?_append, hfindNone]
    rw [Option.none_or]
    exact List.find?_cons_of_pos _ (pidEq_refl pid)
  have hliveN : liveAt gr now (⟨pid, artist, title, email, description, pd, dur, 0⟩ : Session)
      = true := by
    unfold liveAt sessionEnd
    exact decide_eq_true (show now < pd + dur * 60 + gr by omega)
  have hliveV : liveAt gr now (⟨pid, artist, title, email, description, pd, dur, v⟩ : Session)
      = true := by
    unfold liveAt sessionEnd
    exact decide_eq_true (show now < pd + dur * 60 + gr by omega)
  have hreg : register now pid artist title email description pd dur st0
      = (Except.ok (mint ⟨pid, artist, title, email, description, pd, dur, 0⟩),
         { st0 with sessions :=
             st0.sessions ++ [⟨pid, artist, title, email, description, pd, dur, 0⟩] }) := by
    unfold register
    rw [if_neg (by rw [hfields]; simp), if_neg (by rw [hdate]; simp)]
  have hver : verifyToken gr now (mint ⟨pid, artist, title, email, description, pd, dur, 0⟩)
      (subscribe gr now cid pid
        { st0 with sessions :=
            st0.sessions ++ [⟨pid, artist, title, email, description, pd, dur, 0⟩] })
      = some ⟨pid, artist, title, email, description, pd, dur, 0⟩ := by
    unfold verifyToken
    have hmp : (mint (⟨pid, artist, title, email, description, pd, dur, 0⟩ : Session)).pid
        = pid := rfl
    rw [hmp]
    have hfs : findSession
        (subscribe gr now cid pid
          { st0 with sessions :=
              st0.sessions ++ [⟨pid, artist, title, email, description, pd, dur, 0⟩] })
        pid = some ⟨pid, artist, title, email, description, pd, dur, 0⟩ := by
      unfold findSession
      rw [subscribe_sessions]
      exact hfind1
    rw [hfs]
    dsimp only
    rw [if_pos ⟨hliveN, rfl⟩]
  have hsetEq : setStatus gr now pid (mint ⟨pid, artist, title, email, description, pd, dur, 0⟩) v
      (subscribe gr now cid pid
        { st0 with sessions :=
            st0.sessions ++ [⟨pid, artist, title, email, description, pd, dur, 0⟩] })
      = (Except.ok (mint ⟨pid, artist, title, email, description, pd, dur, v⟩),
         broadcast pid (ServerMsg.performanceStatusUpdate v)
           (replaceSession
             (subscribe gr now cid pid
               { st0 with sessions :=
                   st0.sessions ++ [⟨pid, artist, title, email, description, pd, dur, 0⟩] })
             ⟨pid, artist, title, email, description, pd, dur, v⟩)) := by
    unfold setStatus
    rw [hver]
    dsimp only
    rw [if_pos (pidEq_refl pid)]
  have hfreshFalse : ∀ t ∈ st0.sessions, pidEq t.pid pid = false :=
    (findSession_eq_none_iff st0 pid).mp hfresh
  have hsessFinal :
      (setStatus gr now pid (mint ⟨pid, artist, title, email, description, pd, dur, 0⟩) v
        (subscribe gr now cid pid
          { st0 with sessions :=
              st0.sessions ++ [⟨pid, artist, title, email, description, pd, dur, 0⟩] })).2.sessions
      = st0.sessions ++ [⟨pid, artist, title, email, description, pd, dur, v⟩] := by
    rw [hsetEq]
    rw [broadcast_sessions]
    unfold replaceSession
    dsimp only
    rw [subscribe_sessions]
    dsimp only
    rw [List.map_append]
    congr 1
    · have hid : ∀ t ∈ st0.sessions,
          (if pidEq t.pid (⟨pid, artist, title, email, description, pd, dur, v⟩ : Session).pid
           then (⟨pid, artist, title, email, description, pd, dur, v⟩ : Session) else t) = t := by
        intro t ht
        rw [if_neg]
        intro hcontra
        have hfalse := hfreshFalse t ht
        rw [hcontra] at hfalse
        cases hfalse
      rw [List.map_congr_left hid]
      exact List.map_id' _
    · simp only [List.map_cons, List.map_nil]
      rw [if_pos (pidEq_refl pid)]
  refine ⟨mint ⟨pid, artist, title, email, description, pd, dur, 0⟩,
    { st0 with sessions :=
        st0.sessions ++ [⟨pid, artist, title, email, description, pd, dur, 0⟩] },
    hreg, ?_, ?_, ?_, ?_, ?_⟩
  · unfold getStatus
    rw [hfind1]
    dsimp only
    rw [if_pos hliveN]
  · intro c hc hcid
    unfold subscribe at hc
    rw [hfind1] at hc
    dsimp only at hc
    rw [if_pos hliveN] at hc
    unfold broadcast at hc
    dsimp only at hc
    simp only [List.mem_map] at hc
    obtain ⟨c0, hc0, rfl⟩ := hc
    obtain ⟨a, ha, rfl⟩ := hc0
    rw [broadcastStep_cid] at hcid
    by_cases h0 : a.cid = cid
    · have hcn : a.connected = true := hconn a ha h0
      apply broadcastStep_inbox_mono
      rw [if_pos h0]
      dsimp only
      rw [if_pos hcn]
      simp
    · rw [if_neg h0] at hcid
      exact absurd hcid h0
  · rw [hsetEq]
    rfl
  · unfold getStatus
    have hfs2 : findSession
        (setStatus gr now pid (mint ⟨pid, artist, title, email, description, pd, dur, 0⟩) v
          (subscribe gr now cid pid
            { st0 with sessions :=
                st0.sessions ++ [⟨pid, artist, title, email, description, pd, dur, 0⟩] })).2
        pid = some ⟨pid, artist, title, email, description, pd, dur, v⟩ := by
      unfold findSession
      rw [hsessFinal]
      rw [List.find?_append, hfindNone]
      rw [Option.none_or]
      exact List.find?_cons_of_pos _ (pidEq_refl pid)
    rw [hfs2]
    dsimp only
    rw [if_pos hliveV]
  · rw [hsetEq]
    exact broadcast_subscriber_inbox pid (ServerMsg.performanceStatusUpdate v)
      (replaceSession
        (subscribe gr now cid pid
          { st0 with sessions :=
              st0.sessions ++ [⟨pid, artist, title, email, description, pd, dur, 0⟩] })
        ⟨pid, artist, title, email, description, pd, dur, v⟩)

/-- Witness for C7: registering `ABC123` at time 1000 (window [990, 1050),
grace 61) on a server with one connected, unsubscribed channel `7`, then
subscribing channel 7 and setting the status to 2. -/
theorem spec_C7_witness :
    ∃ tok st1,
      register 1000 "ABC123" "DJFury" "FreshBeats" "e" "d" 990 1
          ⟨[], [⟨7, none, true, []⟩]⟩ = (Except.ok tok, st1)
      ∧ getStatus 61 1000 "ABC123" st1 = Except.ok 0
      ∧ (∀ c ∈ (subscribe 61 1000 7 "ABC123" st1).channels, c.cid = 7 →
          ServerMsg.performanceStatusUpdate 0 ∈ c.inbox)
      ∧ (setStatus 61 1000 "ABC123" tok 2 (subscribe 61 1000 7 "ABC123" st1)).1
          = Except.ok { tok with status := 2 }
      ∧ getStatus 61 1000 "ABC123"
          (setStatus 61 1000 "ABC123" tok 2 (subscribe 61 1000 7 "ABC123" st1)).2
          = Except.ok 2
      ∧ (∀ c ∈ (setStatus 61 1000 "ABC123" tok 2 (subscribe 61 1000 7 "ABC123" st1)).2.channels,
          c.subscribedTo = some "ABC123" → c.connected = true →
          ∃ pre, c.inbox = pre ++ [ServerMsg.performanceStatusUpdate 2]) :=
  spec_C7 61 1000 ⟨[], [⟨7, none, true, []⟩]⟩ "ABC123" "DJFury" "FreshBeats" "e" "d"
    990 1 7 2 (by decide) (by decide) (by decide) (by decide) (by decide)

/-- Append delivered messages to a channel inbox (the effect of one broadcast
on a subscribed, connected channel). -/
def appendInbox (msgs : List ServerMsg) (c : Channel) : Channel :=
  { c with inbox := c.inbox ++ msgs }

theorem publish_ok (gr now : Int) (tok : TokenClaims) (v : Int) (st : ServerState)
    (s : Session) (hfind : findSession st tok.pid = some s)
    (hlive : liveAt gr now s = true) (hmint : mint s = tok)
    (hact : activeAt now s = true) :
    publish gr now tok v st
      = (Except.ok (), broadcast s.pid (ServerMsg.heartrateUpdate v) st) := by
  unfold publish verifyToken
  rw [hfind]
  dsimp only
  rw [if_pos ⟨hlive, hmint⟩]
  dsimp only
  rw [if_pos hact]

theorem broadcast_all (pid : String) (msg : ServerMsg) (st : ServerState)
    (hsub : ∀ c ∈ st.channels, c.subscribedTo = some pid ∧ c.connected = true) :
    broadcast pid msg st = { st with channels := st.channels.map (appendInbox [msg]) } := by
  unfold broadcast
  congr 1
  apply List.map_congr_left
  intro c hc
  obtain ⟨h1, h2⟩ := hsub c hc
  unfold broadcastStep
  rw [if_pos (show subMatches c.subscribedTo pid = true by rw [h1]; exact subMatches_self pid),
      if_pos h2]
  rfl

theorem publishAll_channels (gr now : Int) (tok : TokenClaims) (pid : String)
    (vs : List Int) :
    ∀ st s, findSession st tok.pid = some s → liveAt gr now s = true → mint s = tok →
      activeAt now s = true → s.pid = pid →
      (∀ c ∈ st.channels, c.subscribedTo = some pid ∧ c.connected = true) →
      publishAll gr now tok vs st
        = { st with channels :=
              st.channels.map (appendInbox (vs.map ServerMsg.heartrateUpdate)) } := by
  induction vs with
  | nil =>
    intro st s h1 h2 h3 h4 h5 h6
    unfold publishAll
    cases st with
    | mk sess chans =>
      dsimp only
      congr 1
      have hid : ∀ c ∈ chans,
          appendInbox (List.map ServerMsg.heartrateUpdate []) c = c := by
        intro c hc
        cases c
        simp [appendInbox]
      rw [List.map_congr_left hid]
      exact (List.map_id' chans).symm
  | cons v rest ih =>
    intro st s h1 h2 h3 h4 h5 h6
    unfold publishAll
    rw [publish_ok gr now tok v st s h1 h2 h3 h4]
    dsimp only
    rw [h5, broadcast_all pid (ServerMsg.heartrateUpdate v) st h6]
    rw [ih { st with channels := st.channels.map (appendInbox [ServerMsg.heartrateUpdate v]) }
        s h1 h2 h3 h4 h5 ?hsub]
    case hsub =>
      intro c hc
      simp only [List.mem_map] at hc
      obtain ⟨c0, hc0, rfl⟩ := hc
      exact h6 c0 hc0
    dsimp only
    congr 1
    rw [List.map_map]
    apply List.map_congr_left
    intro c hc
    cases c
    simp [appendInbox, Function.comp]

theorem countHeartrates_map_hr (vs : List Int) :
    countHeartrates (vs.map ServerMsg.heartrateUpdate) = vs.length := by
  induction vs with
  | nil => rfl
  | cons v rest ih =>
    unfold countHeartrates at ih ⊢
    simp only [List.map_cons]
    rw [List.filter_cons_of_pos (by rfl)]
    simp only [List.length_cons, ih]

/-- C1: with N connected subscribers of one performance (all with empty
inboxes) and a publisher holding a valid token for the active session,
publishing K pairwise-distinct samples delivers each sample to each subscriber
at most once, and the total number of heartrate samples received summed across
all subscribers equals N * K. -/
theorem spec_C1 (gr now : Int) (st : ServerState) (s : Session) (tok : TokenClaims)
    (vs : List Int)
    (hfind : findSession st tok.pid = some s) (hlive : liveAt gr now s = true)
    (hmint : mint s = tok) (hact : activeAt now s = true)
    (hsub : ∀ c ∈ st.channels, c.subscribedTo = some s.pid ∧ c.connected = true)
    (hempty : ∀ c ∈ st.channels, c.inbox = [])
    (hnd : vs.Nodup) :
    (((publishAll gr now tok vs st).channels.map (fun c => countHeartrates c.inbox)).sum
        = st.channels.length * vs.length)
    ∧ (∀ c ∈ (publishAll gr now tok vs st).channels, ∀ w : Int,
        c.inbox.count (ServerMsg.heartrateUpdate w) ≤ 1) := by
  rw [publishAll_channels gr now tok s.pid vs st s hfind hlive hmint hact rfl hsub]
  constructor
  · dsimp only
    rw [List.map_map]
    have hval : ∀ c ∈ st.channels,
        ((fun c => countHeartrates c.inbox) ∘ appendInbox (vs.map ServerMsg.heartrateUpdate)) c
          = vs.length := by
      intro c hc
      dsimp only [Function.comp, appendInbox]
      rw [hempty c hc]
      simp only [List.nil_append]
      exact countHeartrates_map_hr vs
    rw [List.map_congr_left hval, List.map_const', List.sum_replicate, smul_eq_mul]
  · intro c hc w
    dsimp only at hc
    simp only [List.mem_map] at hc
    obtain ⟨c0, hc0, rfl⟩ := hc
    unfold appendInbox
    dsimp only
    rw [hempty c0 hc0]
    simp only [List.nil_append]
    have hinj : Function.Injective ServerMsg.heartrateUpdate := by
      intro a b hab
      injection hab
    rw [List.count_map_of_injective vs ServerMsg.heartrateUpdate hinj w]
    exact List.nodup_iff_count_le_one.mp hnd w

/-- Witness for C1: two connected subscribers of `ABC123` and the publisher of
`sampleSession` sending the three distinct samples 100, 110, 120 at time
1000 (inside the window [990, 1050)). -/
theorem spec_C1_witness :
    (((publishAll 61 1000 (mint sampleSession) [100, 110, 120]
          ⟨[sampleSession], [⟨0, some "ABC123", true, []⟩, ⟨1, some "ABC123", true, []⟩]⟩).channels.map
        (fun c => countHeartrates c.inbox)).sum
      = (⟨[sampleSession], [⟨0, some "ABC123", true, []⟩, ⟨1, some "ABC123", true, []⟩]⟩ : ServerState).channels.length
          * ([100, 110, 120] : List Int).length)
    ∧ (∀ c ∈ (publishAll 61 1000 (mint sampleSession) [100, 110, 120]
          ⟨[sampleSession], [⟨0, some "ABC123", true, []⟩, ⟨1, some "ABC123", true, []⟩]⟩).channels,
        ∀ w : Int, c.inbox.count (ServerMsg.heartrateUpdate w) ≤ 1) :=
  spec_C1 61 1000
    ⟨[sampleSession], [⟨0, some "ABC123", true, []⟩, ⟨1, some "ABC123", true, []⟩]⟩
    sampleSession (mint sampleSession) [100, 110, 120]
    (by decide) (by decide) (by decide) (by decide) (by decide) (by decide) (by decide)
